import Mathlib

/-!
Shallow embedding of the settings-merge, console-client and
process-supervision core of the `seven-days-to-die` container entrypoint
(`entrypoint.go`), together with theorems settling the specification
claims about it.

Go maps (`map[string]string`) are embedded as association lists with
pairwise-distinct keys; Go map iteration plus assignment becomes a fold
of an insert operation.  The telnet console is embedded as the sequence
of results its reads deliver, each tagged with the wall-clock time the
read consumes; machine durations (`time.Duration`, an `int64` nanosecond
count) become `Int`.
-/

namespace Sdtd

/-- A Go `map[string]string` of server settings, embedded as an
association list.  (`entrypoint.go`, used throughout the settings code.) -/
abbrev SettingsMapping := List (String × String)

/-- Go map lookup `m[k]`: the value stored at key `k`, if present. -/
def lookupKey : SettingsMapping → String → Option String
  | [], _ => none
  | (k2, v) :: rest, k => if k2 = k then some v else lookupKey rest k

/-- The keys of a mapping. -/
def keysOf (m : SettingsMapping) : List String := m.map Prod.fst

/-- Well-formedness: pairwise-distinct keys.  Every Go map satisfies
this; it is the invariant the association-list embedding carries. -/
def WFMapping (m : SettingsMapping) : Prop := (keysOf m).Nodup

instance (m : SettingsMapping) : Decidable (WFMapping m) :=
  List.nodupDecidable (keysOf m)

/-- Go map assignment `m[k] = v`: replaces the binding of `k` when
present, otherwise adds one. -/
def mapInsert : SettingsMapping → String → String → SettingsMapping
  | [], k, v => [(k, v)]
  | (k2, v2) :: rest, k, v =>
      if k2 = k then (k, v) :: rest else (k2, v2) :: mapInsert rest k v

/-- One step of `merge` (`entrypoint.go` line 441-444): copy every
binding of `b` into `a`, later bindings overwriting earlier ones. -/
def mergeTwo (a b : SettingsMapping) : SettingsMapping :=
  b.foldl (fun acc p => mapInsert acc p.1 p.2) a

/-- `merge` (`entrypoint.go` line 439-447): left-to-right fold of the
given mappings into an initially empty map, each mapping's bindings
overwriting earlier ones on collision. -/
def merge (items : List SettingsMapping) : SettingsMapping :=
  items.foldl mergeTwo []

/-- The fixed mapping merged second in `entrypoint()`
(`entrypoint.go` line 531-533): enable the web dashboard by default. -/
def webDashboardDefaultSettings : SettingsMapping :=
  [("WebDashboardEnabled", "true")]

/-- The forced-override mapping merged last in `entrypoint()`
(`entrypoint.go` line 535-540). -/
def forcedSettings : SettingsMapping :=
  [("TelnetEnabled", "true"),
   ("TelnetPort", "8081"),
   ("UserDataFolder", "/data"),
   ("WebDashboardPort", "8080")]

/-- The settings value computed by `entrypoint()` (`entrypoint.go`
line 529-541), parameterised by the parsed default settings and the
environment-derived settings. -/
def entrypointMergedSettings (defaults envSettings : SettingsMapping) :
    SettingsMapping :=
  merge [defaults, webDashboardDefaultSettings, envSettings, forcedSettings]

/-- `property` (`entrypoint.go` line 393-396): one element of the server
settings XML document, carrying a name attribute and a value attribute. -/
structure property where
  name : String
  value : String
deriving DecidableEq, Repr

/-- `serverSettings` (`entrypoint.go` line 387-390): the root XML element,
an ordered sequence of properties. -/
structure serverSettings where
  properties : List property
deriving DecidableEq, Repr

/-- Lexicographic comparison of two strings as their character lists,
the order `sort.Strings` sorts by (UTF-8 byte order coincides with code
point order).  Computable, unlike the `String.ltb` iterator form. -/
def strLe (a b : String) : Bool :=
  decide (a.toList ≤ b.toList)

/-- Insert a string into an already-sorted list, keeping it sorted. -/
def insertSorted (x : String) : List String → List String
  | [] => [x]
  | y :: ys => if strLe x y then x :: y :: ys else y :: insertSorted x ys

/-- `sort.Strings` (used at `entrypoint.go` line 460): sorts a list of
strings into ascending lexicographic order, here as insertion sort. -/
def sortStrings (l : List String) : List String :=
  l.foldr insertSorted []

/-- `writeServerSettings` (`entrypoint.go` line 452-473), the document
it produces: collect the keys of the mapping, sort them, and emit one
property per key, in sorted key order, holding that key's value. -/
def writeServerSettings (data : SettingsMapping) : serverSettings :=
  ⟨(sortStrings (keysOf data)).filterMap
    (fun k => (lookupKey data k).map (fun v => property.mk k v))⟩

/-- The parsing loop of `getDefaultServerSettings` (`entrypoint.go`
line 416-419): fold the document's properties into a fresh map,
`data[property.Name] = property.Value` for each in order. -/
def settingsToMap (s : serverSettings) : SettingsMapping :=
  s.properties.foldl (fun acc p => mapInsert acc p.name p.value) []

/-- The tuple view of a parsed document: each property as a (name, value)
pair, in document order. -/
def toPairs (s : serverSettings) : SettingsMapping :=
  s.properties.map (fun p => (p.name, p.value))

/-! ### Console client model -/

/-- The result of one `conn.Read` call that returns. -/
inductive ReadResult where
  | chunk (s : String)
  | ioError
deriving DecidableEq, Repr

/-- One returning read on a connection: its result, and the wall-clock
time (nanoseconds, the unit of a Go `time.Duration`) that passes over
the loop iteration performing it. -/
structure ReadEvent where
  result : ReadResult
  elapsed : Nat
deriving DecidableEq, Repr

/-- A console connection, embedded as the sequence of read results it
will deliver; a read past the end of the sequence blocks forever. -/
structure Conn where
  reads : List ReadEvent
deriving DecidableEq, Repr

/-- Go `strings.Contains(data, pat)`: `pat` occurs as a contiguous
substring of `data`. -/
def containsPattern (data pat : String) : Bool :=
  decide (List.IsInfix pat.toList data.toList)

/-- The possible behaviours of one `readUntilPattern` call.
`timedOut`: returned the "timed out reading until pattern" error;
`returnedOk`: returned nil; `blocked`: a read blocked forever, so the
call never returns. -/
inductive ReadOutcome where
  | timedOut
  | returnedOk
  | blocked
deriving DecidableEq, Repr

/-- The loop of `readUntilPattern` (`entrypoint.go` line 57-70).
`elapsed` is the wall-clock time consumed by the iterations so far (the
`now.Sub(start)` seen at the top of the next iteration, never negative
under a monotonic clock) and `data` the text accumulated so far.  The
timeout comparison happens at the top of every iteration, before the
read; on a read error the code returns nil (line 63-65); after a read,
the chunk is appended and the accumulated data searched for the
pattern. -/
def readLoop (pat : String) (timeout : Int) :
    List ReadEvent → String → Nat → ReadOutcome
  | reads, data, elapsed =>
    if (elapsed : Int) ≥ timeout then .timedOut
    else
      match reads with
      | [] => .blocked
      | r :: rest =>
        match r.result with
        | .ioError => .returnedOk
        | .chunk s =>
            if containsPattern (data ++ s) pat then .returnedOk
            else readLoop pat timeout rest (data ++ s) (elapsed + r.elapsed)

/-- `readUntilPattern` (`entrypoint.go` line 53-72) against a connection
delivering `reads`: start with empty data and zero elapsed time. -/
def readUntilPattern (reads : List ReadEvent) (pat : String)
    (timeout : Int) : ReadOutcome :=
  readLoop pat timeout reads "" 0

/-- The ready-prompt string (`entrypoint.go` line 91). -/
def promptPattern : String :=
  "Press 'help' to get a list of all commands. Press 'exit' to end session."

/-- The 5-second prompt timeout (`entrypoint.go` line 92), in
nanoseconds. -/
def promptTimeoutNs : Int := 5000000000

/-- How one `dialServer` call ends.  `dialFailed`: `net.Dial` returned
an error; `promptTimeout`: the prompt wait returned its timeout error;
`blocked`: the prompt wait never returned; `cbOk` and `cbError`: the
callback ran and returned nil, or an error. -/
inductive DialOutcome where
  | dialFailed
  | promptTimeout
  | blocked
  | cbOk
  | cbError
deriving DecidableEq, Repr

/-- One execution of `dialServer`: its outcome, whether a connection was
opened, and whether the deferred `conn.Close()` ran before the function
returned. -/
structure DialRun where
  outcome : DialOutcome
  opened : Bool
  closed : Bool
deriving DecidableEq, Repr

/-- `dialServer` (`entrypoint.go` line 81-98): dial; on success the
deferred `conn.Close()` is armed, so it runs on every return path; wait
for the ready prompt with the 5-second timeout; return the timeout error
if the wait reports one; otherwise invoke the callback and return its
result.  `dial` is the connection the network yields (`none` embeds a
failing `net.Dial`); `cb` maps the connection to the callback's success. -/
def dialServer (dial : Option Conn) (cb : Conn → Bool) : DialRun :=
  match dial with
  | none => ⟨.dialFailed, false, false⟩
  | some conn =>
      match readUntilPattern conn.reads promptPattern promptTimeoutNs with
      | .timedOut => ⟨.promptTimeout, true, true⟩
      | .blocked => ⟨.blocked, true, false⟩
      | .returnedOk =>
          if cb conn then ⟨.cbOk, true, true⟩ else ⟨.cbError, true, true⟩

/-- `checkHealth` (`entrypoint.go` line 552-560): one `dialServer` call
whose callback records health and returns nil; `checkHealth` returns
`dialServer`'s error. -/
def checkHealth (dial : Option Conn) : DialRun :=
  dialServer dial (fun _ => true)

/-! ### Process supervisor model -/

/-- The signals `handleSignals` subscribes to
(`entrypoint.go` line 133: SIGINT, SIGTERM). -/
inductive Sig where
  | sigint
  | sigterm
deriving DecidableEq, Repr

/-- Observable events of a supervised server run.  `childStart` and
`childExit`: `cmd.Run` spawns the server process and returns when it
exits; `catchSignal`: the handler goroutine receives a signal from the
notification channel and records it; `dialConsole`, `sendCommand`,
`closeConsole`: a console session's dial, command write and deferred
close; `handledDone`: the handler goroutine writes to the
`signalHandled` channel; `forwardToChild`: `cmd.Process.Signal(sig)`,
the forwarding that `runCmd`'s own handler would perform; `superReturn`:
`startSdtdServer` returns. -/
inductive SupEvent where
  | childStart
  | childExit
  | catchSignal (s : Sig)
  | dialConsole
  | sendCommand (c : String)
  | closeConsole
  | handledDone
  | forwardToChild (s : Sig)
  | superReturn
deriving DecidableEq, Repr

/-- The command text `shutdownSdtdServer` writes
(`entrypoint.go` line 362). -/
def shutdownCmd : String := "shutdown\n"

/-- The console-session events of a `dialServer` call (`entrypoint.go`
line 81-98): the dial; then, when the prompt wait returns nil, the
callback's writes and the deferred close; a failed dial produces only
the dial attempt; a prompt-wait timeout produces no write but still the
deferred close; a blocked prompt wait never returns, so the deferred
close never runs. -/
def dialServerEvents (dial : Option Conn) (cbWrites : List String) :
    List SupEvent :=
  match dial with
  | none => [.dialConsole]
  | some conn =>
      match readUntilPattern conn.reads promptPattern promptTimeoutNs with
      | .timedOut => [.dialConsole, .closeConsole]
      | .blocked => [.dialConsole]
      | .returnedOk =>
          .dialConsole :: (cbWrites.map SupEvent.sendCommand ++ [.closeConsole])

/-- `shutdownSdtdServer` (`entrypoint.go` line 360-365): a `dialServer`
call whose callback writes the shutdown command once. -/
def shutdownSdtdServerEvents (dial : Option Conn) : List SupEvent :=
  dialServerEvents dial [shutdownCmd]

/-- `execOpts` (`entrypoint.go` line 146-152).  `AsUser` is embedded as
an optional uid/gid pair, `Env` as the optional variables appended to
the inherited environment. -/
structure execOpts where
  AsUser : Option (Nat × Nat)
  Attach : Bool
  Cwd : String
  Env : Option (List String)
  Signals : Bool
deriving DecidableEq, Repr

/-- The options `startSdtdServer` passes to `runCmd`
(`entrypoint.go` line 379): streams attached, working directory the
server folder, environment augmented with a library search path, and
`Signals` false. -/
def startSdtdServerOpts : execOpts :=
  ⟨none, true, "/server", some ["LD_LIBRARY_PATH=."], false⟩

/-- The events of the signal handler `runCmd` installs when
`opts.Signals` is set (`entrypoint.go` line 180-184): it forwards the
caught signal to the child.  When `Signals` is false `runCmd` installs
no handler and no such events can arise. -/
def runCmdSignalEvents (opts : execOpts) (s : Sig) : List SupEvent :=
  if opts.Signals then [.catchSignal s, .forwardToChild s, .handledDone]
  else []

/-- The main-thread events of `startSdtdServer` (`entrypoint.go`
line 367-384): `runCmd` spawns the child and blocks until it exits.
`runCmd` is invoked with `startSdtdServerOpts`, whose `Signals` field is
false (`runCmdSignalEvents startSdtdServerOpts s = []`), so the main
thread contributes no signal handling of its own. -/
def startSdtdMainEvents : List SupEvent := [.childStart, .childExit]

/-- The handler-goroutine events of `startSdtdServer`'s `handleSignals`
registration (`entrypoint.go` line 372-375 with line 126-143) once a
signal `s` is delivered: receive the signal from the channel and record
it, run the callback — `shutdownSdtdServer()` — then write to the
`signalHandled` channel. -/
def startSdtdHandlerEvents (s : Sig) (dial : Option Conn) : List SupEvent :=
  .catchSignal s :: (shutdownSdtdServerEvents dial ++ [.handledDone])

/-- `zs` is an interleaving of `xs` and `ys`: every event of both, each
sequence's internal order preserved. -/
inductive Interleave :
    List SupEvent → List SupEvent → List SupEvent → Prop where
  | nil : Interleave [] [] []
  | left {x xs ys zs} :
      Interleave xs ys zs → Interleave (x :: xs) ys (x :: zs)
  | right {y xs ys zs} :
      Interleave xs ys zs → Interleave xs (y :: ys) (y :: zs)

/-- Occurrence count of an event in a trace. -/
def countEv (a : SupEvent) : List SupEvent → Nat
  | [] => 0
  | x :: xs => (if x = a then 1 else 0) + countEv a xs

/-- The traces of one `startSdtdServer` run during which a single signal
`s` is delivered while the child process runs and the handler goroutine
runs to completion: the main thread and the handler goroutine
interleave; the signal is caught before the child exits; and
`startSdtdServer` returns last, because `cmd.Run` blocks until the child
exits and `signalHandler.Wait` (`entrypoint.go` line 114-120) blocks on
the `signalHandled` channel — the handler's final event — whenever a
signal was recorded before the wait. -/
def SupTraceSignaled (s : Sig) (dial : Option Conn)
    (t : List SupEvent) : Prop :=
  ∃ u, Interleave startSdtdMainEvents (startSdtdHandlerEvents s dial) u ∧
    List.Sublist [SupEvent.catchSignal s, SupEvent.childExit] u ∧
    t = u ++ [SupEvent.superReturn]

/-! ### Scheduled restart, modelled from the spec -/

/-- The steps the fired restart timer runs, in order, per the spec. -/
inductive TimerAction where
  | openConsole
  | broadcastWarning
  | waitOneMinute
  | gracefulShutdown
deriving DecidableEq, Repr

/-- One minute, in nanoseconds. -/
def oneMinuteNs : Int := 60000000000

/-- Modelled from the spec: the scheduled-restart timer of the process
supervisor is missing from the source files present here (the spec
describes the subsystem across the file's revisions).  Spec section 4.3:
"if a restart interval D is configured, a background timer fires once,
max(D − 1 minute, 0) after start: it opens a console connection and
broadcasts a warning chat message, waits 1 minute, then performs the
same graceful shutdown as the signal path"; section 3: it is "an
optional one-shot background schedule", existing "only if a restart
interval was configured", firing "exactly once per process lifetime"
with "no further lifecycle after firing (no recurring schedule)".  The
armed timer is embedded as its firing delay paired with the single
finite action sequence it runs on firing; arming yields `none` when no
interval is configured. -/
def armRestartTimer (interval : Option Int) :
    Option (Int × List TimerAction) :=
  interval.map (fun d =>
    (max (d - oneMinuteNs) 0,
     [.openConsole, .broadcastWarning, .waitOneMinute, .gracefulShutdown]))

/-! ### Lemmas about the mapping operations -/

theorem lookupKey_mapInsert (m : SettingsMapping) (k v k2 : String) :
    lookupKey (mapInsert m k v) k2 =
      if k = k2 then some v else lookupKey m k2 := by
  induction m with
  | nil =>
      by_cases h : k = k2 <;> simp [mapInsert, lookupKey, h]
  | cons p rest ih =>
      obtain ⟨k3, v3⟩ := p
      by_cases h3 : k3 = k
      · subst h3
        by_cases h : k3 = k2 <;> simp [mapInsert, lookupKey, h]
      · by_cases h : k3 = k2
        · subst h
          have : ¬ k = k3 := fun hc => h3 hc.symm
          simp [mapInsert, lookupKey, h3, this]
        · simp [mapInsert, lookupKey, h3, h, ih]

theorem lookupKey_eq_none_of_not_mem (m : SettingsMapping) (k : String)
    (h : k ∉ keysOf m) : lookupKey m k = none := by
  induction m with
  | nil => rfl
  | cons p rest ih =>
      obtain ⟨k2, v2⟩ := p
      simp [keysOf] at h
      simp [lookupKey, h.1, ih (by simpa [keysOf] using h.2)]
      intro hc
      exact absurd hc.symm h.1

theorem lookupKey_mergeTwo (a b : SettingsMapping) (hb : WFMapping b)
    (k : String) :
    lookupKey (mergeTwo a b) k =
      match lookupKey b k with
      | some v => some v
      | none => lookupKey a k := by
  induction b generalizing a with
  | nil => simp [mergeTwo, lookupKey]
  | cons p rest ih =>
      obtain ⟨k2, v2⟩ := p
      have hrest : WFMapping rest := by
        simpa [WFMapping, keysOf] using (List.Nodup.of_cons (by simpa [WFMapping, keysOf] using hb))
      have hstep : mergeTwo a ((k2, v2) :: rest) = mergeTwo (mapInsert a k2 v2) rest := rfl
      rw [hstep, ih (mapInsert a k2 v2) hrest]
      by_cases h : k2 = k
      · subst h
        have hnot : k2 ∉ keysOf rest := by
          have := (by simpa [WFMapping, keysOf] using hb : ¬ k2 ∈ rest.map Prod.fst ∧ (rest.map Prod.fst).Nodup)
          simpa [keysOf] using this.1
        rw [lookupKey_eq_none_of_not_mem rest k2 hnot]
        simp [lookupKey, lookupKey_mapInsert]
      · simp [lookupKey, h, lookupKey_mapInsert]

theorem strLe_iff (a b : String) : strLe a b = true ↔ a ≤ b := by
  rw [strLe, decide_eq_true_iff, String.le_iff_toList_le]

theorem insertSorted_perm (x : String) (l : List String) :
    (insertSorted x l).Perm (x :: l) := by
  induction l with
  | nil => simp [insertSorted]
  | cons y ys ih =>
      by_cases h : strLe x y = true
      · simp [insertSorted, h]
      · simp only [insertSorted, if_neg h]
        exact ((ih.cons y).trans (List.Perm.swap x y ys))

theorem sortStrings_perm (l : List String) : (sortStrings l).Perm l := by
  induction l with
  | nil => simp [sortStrings]
  | cons x xs ih =>
      have hstep : sortStrings (x :: xs) = insertSorted x (sortStrings xs) := rfl
      rw [hstep]
      exact (insertSorted_perm x (sortStrings xs)).trans (ih.cons x)

theorem pairwise_insertSorted (x : String) (l : List String)
    (h : l.Pairwise (· ≤ ·)) : (insertSorted x l).Pairwise (· ≤ ·) := by
  induction l with
  | nil => simp [insertSorted]
  | cons y ys ih =>
      rw [List.pairwise_cons] at h
      by_cases hle : strLe x y = true
      · have hxy : x ≤ y := (strLe_iff x y).1 hle
        simp only [insertSorted, if_pos hle]
        refine List.pairwise_cons.2 ⟨?_, List.pairwise_cons.2 h⟩
        intro b hb
        rcases List.mem_cons.1 hb with rfl | hb
        · exact hxy
        · exact le_trans hxy (h.1 b hb)
      · have hyx : y ≤ x :=
          le_of_not_le (fun hc => hle ((strLe_iff x y).2 hc))
        simp only [insertSorted, if_neg hle]
        refine List.pairwise_cons.2 ⟨?_, ih h.2⟩
        intro b hb
        have hb2 := List.mem_cons.1 ((insertSorted_perm x ys).mem_iff.1 hb)
        rcases hb2 with rfl | hb2
        · exact hyx
        · exact h.1 b hb2

theorem pairwise_sortStrings (l : List String) :
    (sortStrings l).Pairwise (· ≤ ·) := by
  induction l with
  | nil => simp [sortStrings]
  | cons x xs ih => exact pairwise_insertSorted x (sortStrings xs) ih

theorem settingsToMap_eq_mergeTwo (s : serverSettings) :
    settingsToMap s = mergeTwo [] (toPairs s) := by
  simp [settingsToMap, mergeTwo, toPairs, List.foldl_map]

theorem toPairs_writeServerSettings (m : SettingsMapping) :
    toPairs (writeServerSettings m) =
      (sortStrings (keysOf m)).filterMap
        (fun k => (lookupKey m k).map (fun v => (k, v))) := by
  simp [toPairs, writeServerSettings, List.map_filterMap, Option.map_map]
  rfl

theorem keysOf_filterMapPairs_sublist (m : SettingsMapping) (ks : List String) :
    (keysOf (ks.filterMap
      (fun k => (lookupKey m k).map (fun v => (k, v))))).Sublist ks := by
  induction ks with
  | nil => simp [keysOf]
  | cons k rest ih =>
      cases h : lookupKey m k with
      | none =>
          simpa [keysOf, h] using ih.cons k
      | some v =>
          simpa [keysOf, h] using ih.cons₂ k

theorem lookupKey_filterMapPairs (m : SettingsMapping) (ks : List String)
    (k : String) :
    lookupKey (ks.filterMap (fun k2 => (lookupKey m k2).map (fun v => (k2, v)))) k
      = if k ∈ ks then lookupKey m k else none := by
  induction ks with
  | nil => simp [lookupKey]
  | cons k2 rest ih =>
      by_cases hk : k2 = k
      · subst hk
        cases h : lookupKey m k2 with
        | none => simp [List.filterMap_cons, h, ih]
        | some v => simp [List.filterMap_cons, h, lookupKey]
      · have hne : ¬ (k = k2) := fun hc => hk hc.symm
        cases h : lookupKey m k2 with
        | none => simp [List.filterMap_cons, h, ih, List.mem_cons, hne]
        | some v =>
            simp [List.filterMap_cons, h, lookupKey, hk, hne, ih, List.mem_cons]

theorem countEv_append (a : SupEvent) (l1 l2 : List SupEvent) :
    countEv a (l1 ++ l2) = countEv a l1 + countEv a l2 := by
  induction l1 with
  | nil => simp [countEv]
  | cons x xs ih => simp [countEv, ih]; omega

theorem countEv_interleave (a : SupEvent) {xs ys zs : List SupEvent}
    (h : Interleave xs ys zs) :
    countEv a zs = countEv a xs + countEv a ys := by
  induction h with
  | nil => simp [countEv]
  | left h ih => simp [countEv, ih]; omega
  | right h ih => simp [countEv, ih]; omega

theorem interleave_sublist_left {xs ys zs : List SupEvent}
    (h : Interleave xs ys zs) : xs.Sublist zs := by
  induction h with
  | nil => exact List.Sublist.refl []
  | left h ih => exact ih.cons₂ _
  | right h ih => exact ih.cons _

theorem interleave_sublist_right {xs ys zs : List SupEvent}
    (h : Interleave xs ys zs) : ys.Sublist zs := by
  induction h with
  | nil => exact List.Sublist.refl []
  | left h ih => exact ih.cons _
  | right h ih => exact ih.cons₂ _

/-! ### Claim theorems -/

/-- C1: for every parsed-defaults mapping and every environment-derived
settings mapping — any mapping at all, so also one that defines
TelnetPort as 9999 via SETTING_TelnetPort — the settings merged by
`entrypoint()` agree with the forced-override mapping on every key it
defines: TelnetEnabled is "true", TelnetPort is "8081", UserDataFolder
is "/data" and WebDashboardPort is "8080", because the forced mapping is
merged last and later mappings win on collision. -/
theorem sdtd_C1_forced_overrides_win
    (defaults envSettings : SettingsMapping) :
    lookupKey (entrypointMergedSettings defaults envSettings)
        ("TelnetEnabled") = some ("true") ∧
    lookupKey (entrypointMergedSettings defaults envSettings)
        ("TelnetPort") = some ("8081") ∧
    lookupKey (entrypointMergedSettings defaults envSettings)
        ("UserDataFolder") = some ("/data") ∧
    lookupKey (entrypointMergedSettings defaults envSettings)
        ("WebDashboardPort") = some ("8080") := by
  have hwf : WFMapping forcedSettings := by decide
  have hstep : entrypointMergedSettings defaults envSettings =
      mergeTwo (merge [defaults, webDashboardDefaultSettings, envSettings])
        forcedSettings := rfl
  have h1 : lookupKey forcedSettings ("TelnetEnabled") = some ("true") := by
    decide
  have h2 : lookupKey forcedSettings ("TelnetPort") = some ("8081") := by
    decide
  have h3 : lookupKey forcedSettings ("UserDataFolder") = some ("/data") := by
    decide
  have h4 : lookupKey forcedSettings ("WebDashboardPort") = some ("8080") := by
    decide
  refine ⟨?_, ?_, ?_, ?_⟩
  · rw [hstep, lookupKey_mergeTwo _ _ hwf, h1]
  · rw [hstep, lookupKey_mergeTwo _ _ hwf, h2]
  · rw [hstep, lookupKey_mergeTwo _ _ hwf, h3]
  · rw [hstep, lookupKey_mergeTwo _ _ hwf, h4]

/-- C2: merging mappings A, B, C in that order agrees with C on every
key C defines, with B on every key B defines and C does not, and with A
on every remaining key A defines; keys absent from later mappings are
retained from earlier ones (on a key none of them defines the result is
also undefined). -/
theorem sdtd_C2_merge_precedence (A B C : SettingsMapping)
    (hA : WFMapping A) (hB : WFMapping B) (hC : WFMapping C) (k : String) :
    lookupKey (merge [A, B, C]) k =
      match lookupKey C k with
      | some v => some v
      | none =>
        match lookupKey B k with
        | some v => some v
        | none => lookupKey A k := by
  have h0 : merge [A, B, C] = mergeTwo (mergeTwo (mergeTwo [] A) B) C := rfl
  rw [h0, lookupKey_mergeTwo _ _ hC]
  cases hc : lookupKey C k with
  | some v => rfl
  | none =>
      rw [lookupKey_mergeTwo _ _ hB]
      cases hb : lookupKey B k with
      | some v => rfl
      | none => rw [lookupKey_mergeTwo _ _ hA]; cases lookupKey A k <;> rfl

/-- Witness for C2 at concrete mappings: C overrides B overrides A on
the shared key, B's key survives, A's key survives. -/
theorem sdtd_C2_merge_precedence_witness :
    WFMapping [("x", "a1"), ("only", "a2")] ∧
    WFMapping [("x", "b1"), ("keep", "b2")] ∧
    WFMapping [("x", "c1")] ∧
    lookupKey (merge [[("x", "a1"), ("only", "a2")],
      [("x", "b1"), ("keep", "b2")], [("x", "c1")]]) ("x") =
      match lookupKey [("x", "c1")] ("x") with
      | some v => some v
      | none =>
        match lookupKey [("x", "b1"), ("keep", "b2")] ("x") with
        | some v => some v
        | none => lookupKey [("x", "a1"), ("only", "a2")] ("x") :=
  ⟨by decide, by decide, by decide,
    sdtd_C2_merge_precedence [("x", "a1"), ("only", "a2")]
      [("x", "b1"), ("keep", "b2")] [("x", "c1")]
      (by decide) (by decide) (by decide) ("x")⟩

/-- C3 (code bug): a connection whose read fails — for instance one the
peer already closed — makes `readUntilPattern` return nil, i.e. report
success, immediately: `entrypoint.go` line 63-65 executes `return nil`
on a read error.  The pattern was never observed and no retry and no
timeout error happens, although the function's own contract says a read
failure raises an error and the claim says read errors are retried until
the configured timeout elapses. -/
theorem sdtd_C3_read_error_returns_success :
    readUntilPattern [⟨.ioError, 1⟩] promptPattern promptTimeoutNs =
      .returnedOk := by decide

/-- C6 (code bug): a health probe against a server that accepts the
connection and then fails the first read — never emitting the ready
prompt — reports healthy: the prompt wait returns nil on the read error,
`dialServer` proceeds to the callback, and `checkHealth` returns nil.
Observing the prompt is therefore not the success criterion the claim
states. -/
theorem sdtd_C6_checkHealth_ok_without_prompt :
    checkHealth (some ⟨[⟨.ioError, 1⟩]⟩) =
      ⟨.cbOk, true, true⟩ := by decide

/-- C7: every `dialServer` execution that opens a connection and returns
— the prompt wait timed out, or the callback ran and failed, or it ran
and succeeded — has run the deferred `conn.Close()` before returning. -/
theorem sdtd_C7_connection_closed_on_exit (dial : Option Conn)
    (cb : Conn → Bool)
    (hopen : (dialServer dial cb).opened = true)
    (hret : (dialServer dial cb).outcome ≠ DialOutcome.blocked) :
    (dialServer dial cb).closed = true := by
  cases dial with
  | none => simp [dialServer] at hopen
  | some conn =>
      cases h : readUntilPattern conn.reads promptPattern promptTimeoutNs with
      | timedOut => simp [dialServer, h]
      | blocked => exact absurd (by simp [dialServer, h]) hret
      | returnedOk => by_cases hcb : cb conn <;> simp [dialServer, h, hcb]

/-- Witness for C7 at a concrete run: a connection that delivers the
prompt in its first chunk, a callback that succeeds. -/
theorem sdtd_C7_connection_closed_on_exit_witness :
    (dialServer (some ⟨[⟨.chunk promptPattern, 1⟩]⟩)
        (fun _ => true)).opened = true ∧
    (dialServer (some ⟨[⟨.chunk promptPattern, 1⟩]⟩)
        (fun _ => true)).outcome ≠ DialOutcome.blocked ∧
    (dialServer (some ⟨[⟨.chunk promptPattern, 1⟩]⟩)
        (fun _ => true)).closed = true :=
  ⟨by decide, by decide,
    sdtd_C7_connection_closed_on_exit
      (some ⟨[⟨.chunk promptPattern, 1⟩]⟩) (fun _ => true)
      (by decide) (by decide)⟩

/-- C9 (modelled from the spec, whose restart-timer code is not among
the sources here): arming with a configured restart interval D yields a
one-shot timer that fires once, max(D − 1 minute, 0) after start, and on
firing opens a console connection, broadcasts the warning chat message,
waits one minute, and performs the same graceful shutdown as the signal
path — a single finite action sequence, with no recurrence; arming
without a configured interval yields no timer. -/
theorem sdtd_C9_restart_timer :
    (∀ d : Int, armRestartTimer (some d) =
      some (max (d - oneMinuteNs) 0,
        [TimerAction.openConsole, TimerAction.broadcastWarning,
         TimerAction.waitOneMinute, TimerAction.gracefulShutdown])) ∧
    armRestartTimer none = none :=
  ⟨fun _ => rfl, rfl⟩

/-- C10: `readUntilPattern` compares elapsed wall-clock time against the
timeout at the top of every loop iteration, before the read — the first
iteration included.  With a non-positive timeout it therefore returns
the timeout error without attempting a single read, whatever the
connection would deliver; with a strictly positive timeout, a first
chunk containing the pattern yields success. -/
theorem sdtd_C10_timeout_checked_before_first_read :
    (∀ (reads : List ReadEvent) (pat : String) (timeout : Int),
        timeout ≤ 0 →
        readUntilPattern reads pat timeout = .timedOut) ∧
    (∀ (e : ReadEvent) (rest : List ReadEvent) (s pat : String)
        (timeout : Int),
        0 < timeout → e.result = .chunk s → containsPattern s pat = true →
        readUntilPattern (e :: rest) pat timeout = .returnedOk) := by
  constructor
  · intro reads pat timeout h
    have h0 : ((0 : Nat) : Int) ≥ timeout := by omega
    unfold readUntilPattern readLoop
    simp [h0]
    intro hlt
    exact absurd h (by omega)
  · intro e rest s pat timeout hpos he hcontains
    have h0 : ¬ ((0 : Nat) : Int) ≥ timeout := by omega
    have hs : ("" ++ s : String) = s := rfl
    unfold readUntilPattern readLoop
    simp [h0, he, hs, hcontains]
    omega

/-- Witness for C10: with timeout -1 a pattern-bearing first chunk still
times out with no read; with timeout 5 the same chunk succeeds. -/
theorem sdtd_C10_timeout_checked_before_first_read_witness :
    readUntilPattern [⟨.chunk "abc", 1⟩] "b" (-1) = .timedOut ∧
    readUntilPattern [⟨.chunk "abc", 1⟩] "b" 5 = .returnedOk :=
  ⟨sdtd_C10_timeout_checked_before_first_read.1
      [⟨.chunk "abc", 1⟩] "b" (-1) (by decide),
    sdtd_C10_timeout_checked_before_first_read.2
      ⟨.chunk "abc", 1⟩ [] "abc" "b" 5 (by decide) rfl (by decide)⟩

/-- C4: round-trip — serialising any well-formed settings mapping with
`writeServerSettings` and parsing the produced document back with
`getDefaultServerSettings`'s loop yields a mapping whose lookup agrees
with the original on every key (same key set, same values), whatever the
mapping's original insertion order. -/
theorem sdtd_C4_roundtrip (m : SettingsMapping) (hm : WFMapping m)
    (k : String) :
    lookupKey (settingsToMap (writeServerSettings m)) k = lookupKey m k := by
  have hperm := sortStrings_perm (keysOf m)
  have hnodup : (sortStrings (keysOf m)).Nodup := hperm.nodup_iff.2 hm
  have hpairs := toPairs_writeServerSettings m
  have hwfpairs : WFMapping (toPairs (writeServerSettings m)) := by
    show (keysOf (toPairs (writeServerSettings m))).Nodup
    rw [hpairs]
    exact List.Nodup.sublist (keysOf_filterMapPairs_sublist m _) hnodup
  rw [settingsToMap_eq_mergeTwo, lookupKey_mergeTwo _ _ hwfpairs, hpairs,
    lookupKey_filterMapPairs]
  by_cases hk : k ∈ sortStrings (keysOf m)
  · cases hv : lookupKey m k <;> simp [hk, hv, lookupKey]
  · have hk2 : k ∉ keysOf m := fun hc => hk (hperm.mem_iff.2 hc)
    rw [lookupKey_eq_none_of_not_mem m k hk2]
    simp [hk, lookupKey]

/-- Witness for C4 at a concrete mapping inserted in unsorted order. -/
theorem sdtd_C4_roundtrip_witness :
    WFMapping [("b", "2"), ("a", "1")] ∧
    lookupKey (settingsToMap (writeServerSettings [("b", "2"), ("a", "1")]))
        ("a") = lookupKey [("b", "2"), ("a", "1")] ("a") :=
  ⟨by decide, sdtd_C4_roundtrip [("b", "2"), ("a", "1")] (by decide) ("a")⟩

/-- C8: the document `writeServerSettings` produces lists its property
elements in ascending lexicographic key order, for every mapping; in
particular serialising a mapping holding keys "b" and "a" produces the
property named "a" before the property named "b". -/
theorem sdtd_C8_serialization_sorted :
    (∀ m : SettingsMapping,
      ((writeServerSettings m).properties.map property.name).Pairwise
        (· ≤ ·)) ∧
    (writeServerSettings [("b", "2"), ("a", "1")]).properties =
      [property.mk "a" "1", property.mk "b" "2"] := by
  constructor
  · intro m
    have hnames : (writeServerSettings m).properties.map property.name =
        keysOf (toPairs (writeServerSettings m)) := by
      simp [toPairs, keysOf, List.map_map]
    rw [hnames, toPairs_writeServerSettings m]
    exact List.Pairwise.sublist (keysOf_filterMapPairs_sublist m _)
      (pairwise_sortStrings (keysOf m))
  · decide

/-- C5: any completed `startSdtdServer` run in whose course a SIGINT or
SIGTERM is delivered while the server process runs — with the graceful
shutdown's console session reaching the ready prompt — sends the
shutdown command over the console exactly once, never forwards any OS
signal to the child process, and returns only after the child process
has exited and the signal handler has completed. -/
theorem sdtd_C5_signal_graceful_shutdown (s : Sig) (conn : Conn)
    (t : List SupEvent)
    (hprompt : readUntilPattern conn.reads promptPattern promptTimeoutNs =
      .returnedOk)
    (ht : SupTraceSignaled s (some conn) t) :
    countEv (SupEvent.sendCommand shutdownCmd) t = 1 ∧
    (∀ s2 : Sig, countEv (SupEvent.forwardToChild s2) t = 0) ∧
    List.Sublist [SupEvent.childExit, SupEvent.superReturn] t ∧
    List.Sublist [SupEvent.handledDone, SupEvent.superReturn] t := by
  obtain ⟨u, hint, horder, hteq⟩ := ht
  have hhandler : startSdtdHandlerEvents s (some conn) =
      [SupEvent.catchSignal s, SupEvent.dialConsole,
       SupEvent.sendCommand shutdownCmd, SupEvent.closeConsole,
       SupEvent.handledDone] := by
    simp [startSdtdHandlerEvents, shutdownSdtdServerEvents, dialServerEvents,
      hprompt]
  subst hteq
  refine ⟨?_, ?_, ?_, ?_⟩
  · rw [countEv_append, countEv_interleave _ hint, hhandler]
    simp [countEv, startSdtdMainEvents]
  · intro s2
    rw [countEv_append, countEv_interleave _ hint, hhandler]
    simp [countEv, startSdtdMainEvents]
  · have hmain := interleave_sublist_left hint
    have h1 : List.Sublist [SupEvent.childExit] startSdtdMainEvents :=
      (List.Sublist.refl _).cons _
    exact (h1.trans hmain).append (List.Sublist.refl [SupEvent.superReturn])
  · have hhand := interleave_sublist_right hint
    rw [hhandler] at hhand
    have h1 : List.Sublist [SupEvent.handledDone]
        [SupEvent.catchSignal s, SupEvent.dialConsole,
         SupEvent.sendCommand shutdownCmd, SupEvent.closeConsole,
         SupEvent.handledDone] :=
      ((((List.Sublist.refl _).cons _).cons _).cons _).cons _
    exact (h1.trans hhand).append (List.Sublist.refl [SupEvent.superReturn])

/-- Witness for C5 at a concrete run: a SIGTERM caught right after the
child starts, a console that delivers the prompt in its first chunk, and
the trace interleaving the whole handler between child start and child
exit. -/
theorem sdtd_C5_signal_graceful_shutdown_witness :
    (readUntilPattern (Conn.mk [⟨.chunk promptPattern, 1⟩]).reads
      promptPattern promptTimeoutNs = .returnedOk) ∧
    SupTraceSignaled Sig.sigterm (some (Conn.mk [⟨.chunk promptPattern, 1⟩]))
      ([SupEvent.childStart, SupEvent.catchSignal Sig.sigterm,
        SupEvent.dialConsole, SupEvent.sendCommand shutdownCmd,
        SupEvent.closeConsole, SupEvent.handledDone, SupEvent.childExit] ++
        [SupEvent.superReturn]) ∧
    (countEv (SupEvent.sendCommand shutdownCmd)
      ([SupEvent.childStart, SupEvent.catchSignal Sig.sigterm,
        SupEvent.dialConsole, SupEvent.sendCommand shutdownCmd,
        SupEvent.closeConsole, SupEvent.handledDone, SupEvent.childExit] ++
        [SupEvent.superReturn]) = 1 ∧
     (∀ s2 : Sig, countEv (SupEvent.forwardToChild s2)
      ([SupEvent.childStart, SupEvent.catchSignal Sig.sigterm,
        SupEvent.dialConsole, SupEvent.sendCommand shutdownCmd,
        SupEvent.closeConsole, SupEvent.handledDone, SupEvent.childExit] ++
        [SupEvent.superReturn]) = 0) ∧
     List.Sublist [SupEvent.childExit, SupEvent.superReturn]
      ([SupEvent.childStart, SupEvent.catchSignal Sig.sigterm,
        SupEvent.dialConsole, SupEvent.sendCommand shutdownCmd,
        SupEvent.closeConsole, SupEvent.handledDone, SupEvent.childExit] ++
        [SupEvent.superReturn]) ∧
     List.Sublist [SupEvent.handledDone, SupEvent.superReturn]
      ([SupEvent.childStart, SupEvent.catchSignal Sig.sigterm,
        SupEvent.dialConsole, SupEvent.sendCommand shutdownCmd,
        SupEvent.closeConsole, SupEvent.handledDone, SupEvent.childExit] ++
        [SupEvent.superReturn])) := by
  have hprompt : readUntilPattern
      (Conn.mk [⟨.chunk promptPattern, 1⟩]).reads promptPattern
      promptTimeoutNs = .returnedOk := by decide
  have hhandler : startSdtdHandlerEvents Sig.sigterm
      (some (Conn.mk [⟨.chunk promptPattern, 1⟩])) =
      [SupEvent.catchSignal Sig.sigterm, SupEvent.dialConsole,
       SupEvent.sendCommand shutdownCmd, SupEvent.closeConsole,
       SupEvent.handledDone] := by
    simp [startSdtdHandlerEvents, shutdownSdtdServerEvents, dialServerEvents,
      hprompt]
  have hint : Interleave startSdtdMainEvents
      (startSdtdHandlerEvents Sig.sigterm
        (some (Conn.mk [⟨.chunk promptPattern, 1⟩])))
      [SupEvent.childStart, SupEvent.catchSignal Sig.sigterm,
       SupEvent.dialConsole, SupEvent.sendCommand shutdownCmd,
       SupEvent.closeConsole, SupEvent.handledDone, SupEvent.childExit] := by
    rw [hhandler]
    exact .left (.right (.right (.right (.right (.right (.left .nil))))))
  have horder : List.Sublist
      [SupEvent.catchSignal Sig.sigterm, SupEvent.childExit]
      [SupEvent.childStart, SupEvent.catchSignal Sig.sigterm,
       SupEvent.dialConsole, SupEvent.sendCommand shutdownCmd,
       SupEvent.closeConsole, SupEvent.handledDone, SupEvent.childExit] :=
    (((((((List.Sublist.refl _).cons₂ _).cons _).cons _).cons _).cons
      _).cons₂ _).cons _
  have htrace : SupTraceSignaled Sig.sigterm
      (some (Conn.mk [⟨.chunk promptPattern, 1⟩]))
      ([SupEvent.childStart, SupEvent.catchSignal Sig.sigterm,
        SupEvent.dialConsole, SupEvent.sendCommand shutdownCmd,
        SupEvent.closeConsole, SupEvent.handledDone, SupEvent.childExit] ++
        [SupEvent.superReturn]) :=
    ⟨_, hint, horder, rfl⟩
  exact ⟨hprompt, htrace,
    sdtd_C5_signal_graceful_shutdown Sig.sigterm
      (Conn.mk [⟨.chunk promptPattern, 1⟩]) _ hprompt htrace⟩
